import Mathlib

/-!
Verification of the pipelog streaming engine (src/pipelog.c, src/main.c).

The development shallow-embeds the engine: per-sink state (`struct
Pipelog_State`), the rotation controller (`get_outfd`), the slow-path copy
loop of `pipelog`, the initialization loop, the teardown loop, and the exit
code mapping of `main`.  Filesystem and clock effects (open, strftime,
write, ...) are passed in as explicit environment records, one per syscall
site, so that every control-flow decision of the C code is reproduced on
the syscall results.  Machine-level detail is kept where it matters: the
slow path's write loop compares a `size_t` offset against a `ssize_t` read
count, which the embedding models with a 64-bit unsigned conversion.
-/

namespace Pipelog

/-- Errno values used by the engine (Linux numbering). -/
abbrev Errno := Nat

def ENOENT : Errno := 2

def EINTR : Errno := 4

def EAGAIN : Errno := 11

def ENOMEM : Errno := 12

def EACCES : Errno := 13

def EEXIST : Errno := 17

def EINVAL : Errno := 22

def EPIPE : Errno := 32

/-- BUFSIZ: size of the stack buffer the slow path reads into. -/
def BUFSIZ : Nat := 8192

/-- The value of a `ssize_t` read as a `size_t`, as happens in the C
comparison `offset < rcount` between a `size_t` and a `ssize_t`. -/
def usize (i : Int) : Nat := (i % (2 ^ 64 : Int)).toNat

/-- Engine status codes: PIPELOG_SUCCESS, PIPELOG_ERROR, PIPELOG_INTERRUPTED. -/
inductive Status where
  | success
  | error
  | interrupted
deriving DecidableEq

/-- Numeric value of a status code (pipelog.h). -/
def statusCode : Status → Nat
  | .success => 0
  | .error => 1
  | .interrupted => 2

/-- The flag bits accepted by `pipelog` (pipelog.h), one boolean per bit. -/
structure Flags where
  quiet : Bool
  exitOnWriteError : Bool
  noSplice : Bool
  forceRotate : Bool
  blockSighup : Bool
  splice : Bool
deriving DecidableEq

/-- struct Pipelog_Output: a sink specification.  `filename = none` means an
inherited descriptor; `fd` is the inherited descriptor or -1. -/
structure Output where
  filename : Option String
  link : Option String
  fd : Int
deriving DecidableEq

/-- struct Pipelog_State: the engine-owned per-sink state.  `filename` is
the cached formatted filename (NULL in C is `none`); `fd` is the cached
descriptor, -1 when absent. -/
structure State where
  filename : Option String
  fd : Int
deriving DecidableEq

deriving instance DecidableEq for Except

/-- Syscall results consumed by one `get_outfd` tick, one field per call
site in the C function, in program order. -/
structure TickEnv where
  render : Except Errno String
  blockOk : Bool
  allocOk : Bool
  open1 : Except Errno Nat
  mkdirs : Except Errno Unit
  open2 : Except Errno Nat
  seek : Except Errno Unit
  unlinkR : Except Errno Unit
  realpathR : Except Errno String
  symlinkOk : Bool
deriving DecidableEq

/-- What one `get_outfd` call returned and did: the returned descriptor,
the updated `Pipelog_State`, whether `open` was attempted, whether the
symlink entry was touched (unlink attempted), and the target the symlink
was created with, if any. -/
structure TickResult where
  ret : Int
  st : State
  opened : Bool
  linkTouched : Bool
  linkSet : Option String
  errno : Errno
deriving DecidableEq

/-- The open-with-retry sequence of `get_outfd`: `open`; on ENOENT run
`make_parent_dirs` and retry `open` once. -/
def openPhase (env : TickEnv) : Except Errno Nat :=
  match env.open1 with
  | .ok fd => .ok fd
  | .error e =>
    if e = ENOENT then
      match env.mkdirs with
      | .ok _ => env.open2
      | .error e2 => .error e2
    else .error e

/-- The symlink-refresh block of `get_outfd` (lines 186-226): run only when
the name changed and a link is configured; unlink tolerating ENOENT, then
realpath, then symlink; failures are fatal only under exit-on-write-error. -/
def linkPhase (out : Output) (st2 : State) (fl : Flags) (env : TickEnv)
    (newName : Bool) (fd : Nat) : TickResult :=
  match out.link with
  | none => ⟨(fd : Int), st2, true, false, none, 0⟩
  | some _ =>
    if newName then
      match env.unlinkR with
      | .error e =>
        if e ≠ ENOENT then
          if fl.exitOnWriteError then ⟨-1, ⟨st2.filename, -1⟩, true, true, none, e⟩
          else ⟨(fd : Int), st2, true, true, none, 0⟩
        else
          match env.realpathR with
          | .error e2 =>
            if fl.exitOnWriteError then ⟨-1, ⟨st2.filename, -1⟩, true, true, none, e2⟩
            else ⟨(fd : Int), st2, true, true, none, 0⟩
          | .ok abs =>
            if env.symlinkOk then ⟨(fd : Int), st2, true, true, some abs, 0⟩
            else if fl.exitOnWriteError then ⟨-1, ⟨st2.filename, -1⟩, true, true, none, 0⟩
            else ⟨(fd : Int), st2, true, true, none, 0⟩
      | .ok _ =>
        match env.realpathR with
        | .error e2 =>
          if fl.exitOnWriteError then ⟨-1, ⟨st2.filename, -1⟩, true, true, none, e2⟩
          else ⟨(fd : Int), st2, true, true, none, 0⟩
        | .ok abs =>
          if env.symlinkOk then ⟨(fd : Int), st2, true, true, some abs, 0⟩
          else if fl.exitOnWriteError then ⟨-1, ⟨st2.filename, -1⟩, true, true, none, 0⟩
          else ⟨(fd : Int), st2, true, true, none, 0⟩
    else ⟨(fd : Int), st2, true, false, none, 0⟩

/-- The seek-to-end-then-link tail of a successful reopen (lines 171-227):
in splice mode seek to end of file, tolerating EPIPE silently; a
non-EPIPE seek failure skips the link block (and closes the descriptor
under exit-on-write-error); then run the link block. -/
def seekLinkPhase (out : Output) (st2 : State) (fl : Flags) (env : TickEnv)
    (newName : Bool) (fd : Nat) : TickResult :=
  if fl.splice then
    match env.seek with
    | .error e =>
      if e ≠ EPIPE then
        if fl.exitOnWriteError then ⟨-1, ⟨st2.filename, -1⟩, true, false, none, e⟩
        else ⟨(fd : Int), st2, true, false, none, 0⟩
      else linkPhase out st2 fl env newName fd
    | .ok _ => linkPhase out st2 fl env newName fd
  else linkPhase out st2 fl env newName fd

/-- get_outfd (pipelog.c lines 81-244): the rotation controller.  Inherited
sinks (cached filename NULL) return the cached descriptor untouched; for
rendered sinks the pattern is re-rendered and the file reopened iff the
descriptor is absent, the rendered name changed, or force-rotate is set. -/
def get_outfd (out : Output) (st : State) (fl : Flags) (env : TickEnv) : TickResult :=
  match st.filename with
  | none => ⟨st.fd, st, false, false, none, 0⟩
  | some cached =>
    match env.render with
    | .error e => ⟨-1, st, false, false, none, e⟩
    | .ok rendered =>
      let newName : Bool := rendered ≠ cached
      if st.fd < 0 ∨ newName = true ∨ fl.forceRotate = true then
        if fl.blockSighup ∧ env.blockOk = false then ⟨-1, st, false, false, none, EINVAL⟩
        else if newName ∧ env.allocOk = false then ⟨-1, st, false, false, none, ENOMEM⟩
        else
          let st1 : State := ⟨if newName then some rendered else some cached, st.fd⟩
          match openPhase env with
          | .error e => ⟨-1, ⟨st1.filename, -1⟩, true, false, none, e⟩
          | .ok fd => seekLinkPhase out ⟨st1.filename, (fd : Int)⟩ fl env newName fd
      else ⟨st.fd, st, false, false, none, 0⟩

/-- The fast-path selection predicate (pipelog.c line 298):
`count == 1 && !(flags & PIPELOG_NO_SPLICE)`, with `count` the total
number of configured sinks of either kind. -/
def use_splice (outs : List Output) (fl : Flags) : Bool :=
  (outs.length == 1) && !fl.noSplice

/-- Number of path sinks (sinks backed by a filename pattern rather than an
inherited descriptor). -/
def pathSinkCount (outs : List Output) : Nat :=
  (outs.filter (fun o => o.filename.isSome)).length

/-- Result of one `write` call in the slow path's inner loop: `ok n` for a
return of `n ≥ 0` bytes, `err e` for -1 with errno `e`. -/
inductive WriteStep where
  | ok (n : Nat)
  | err (e : Errno)
deriving DecidableEq

/-- How the inner write loop of one sink ended. -/
inductive WOutcome where
  | done
  | starved
  | interrupted
  | fatal
  | eagainBreak
  | disableBreak
  | skipped
deriving DecidableEq

/-- The slow path's inner write loop (pipelog.c lines 652-677) for one sink:
`while (offset < rcount)` with `offset : size_t` against the unsigned view
of `rcount` (`bound`), issuing writes of `rcount - offset` bytes from the
read buffer.  Returns the bytes actually delivered to the sink, the sizes
requested from `write`, and how the loop ended.  A write never transfers
more than requested, hence the clamp `min n (bound - offset)`. -/
def writeChunkAux (eowe : Bool) (chunk : List Nat) (bound : Nat) :
    Nat → List WriteStep → List Nat × List Nat × WOutcome
  | offset, [] =>
    if offset < bound then ([], [], .starved) else ([], [], .done)
  | offset, .ok n :: rest =>
    if offset < bound then
      let req := bound - offset
      let m := min n req
      let r := writeChunkAux eowe chunk bound (offset + m) rest
      ((chunk.drop offset).take m ++ r.1, req :: r.2.1, r.2.2)
    else ([], [], .done)
  | offset, .err e :: _ =>
    if offset < bound then
      if e = EINTR then ([], [bound - offset], .interrupted)
      else if eowe then ([], [bound - offset], .fatal)
      else if e = EAGAIN then ([], [bound - offset], .eagainBreak)
      else ([], [bound - offset], .disableBreak)
    else ([], [], .done)

/-- Per-sink environment of one slow-path iteration: the `get_outfd` tick
environment and the results of the writes to this sink. -/
structure SinkEnv where
  tick : TickEnv
  writes : List WriteStep
deriving DecidableEq

/-- Result of the per-sink distribution loop (pipelog.c lines 648-686):
updated sink states, and per processed sink whether `open` was attempted,
the descriptor `get_outfd` returned, the bytes delivered, the write sizes
requested, and the write-loop outcome; `halt` is set when the loop
terminated the engine. -/
structure DistResult where
  states : List State
  opened : List Bool
  rets : List Int
  delivered : List (List Nat)
  requests : List (List Nat)
  outcomes : List WOutcome
  halt : Option Status
deriving DecidableEq

/-- The distribution loop: for each sink in input order obtain the current
descriptor via `get_outfd` and run the write loop.  A write failing with
EINTR halts with Interrupted; any failure under exit-on-write-error halts
with Error; EAGAIN breaks leaving the descriptor cached; any other write
failure marks the descriptor absent and breaks.  A `get_outfd` failure
halts the engine when exit-on-write-error is clear (pipelog.c line 678)
and silently skips the sink when it is set. -/
def distAll (fl : Flags) (chunk : List Nat) (bound : Nat) :
    List Output → List State → List SinkEnv → DistResult
  | [], sts, _ => ⟨sts, [], [], [], [], [], none⟩
  | _ :: _, sts, [] => ⟨sts, [], [], [], [], [], none⟩
  | _ :: _, [], _ :: _ => ⟨[], [], [], [], [], [], none⟩
  | o :: os, s :: ss, e :: es =>
    let g := get_outfd o s fl e.tick
    if (-1 : Int) < g.ret then
      let w := writeChunkAux fl.exitOnWriteError chunk bound 0 e.writes
      let s' : State := if w.2.2 = .disableBreak then ⟨g.st.filename, -1⟩ else g.st
      if w.2.2 = .interrupted then
        ⟨s' :: ss, [g.opened], [g.ret], [w.1], [w.2.1], [w.2.2], some .interrupted⟩
      else if w.2.2 = .fatal then
        ⟨s' :: ss, [g.opened], [g.ret], [w.1], [w.2.1], [w.2.2], some .error⟩
      else
        let r := distAll fl chunk bound os ss es
        ⟨s' :: r.states, g.opened :: r.opened, g.ret :: r.rets, w.1 :: r.delivered,
         w.2.1 :: r.requests, w.2.2 :: r.outcomes, r.halt⟩
    else
      if fl.exitOnWriteError = false then
        ⟨g.st :: ss, [g.opened], [g.ret], [[]], [[]], [.skipped],
         some (if g.errno = EINTR then .interrupted else .error)⟩
      else
        let r := distAll fl chunk bound os ss es
        ⟨g.st :: r.states, g.opened :: r.opened, g.ret :: r.rets, [] :: r.delivered,
         [] :: r.requests, .skipped :: r.outcomes, r.halt⟩

/-- The SIGHUP handler (pipelog.c lines 26-28): sets the volatile flag. -/
def handle_sighup (_flag : Bool) : Bool := true

/-- Effect of k deliveries of the rotate signal on the flag: k invocations
of the handler. -/
def applySignals : Nat → Bool → Bool
  | 0, flag => flag
  | k + 1, flag => applySignals k (handle_sighup flag)

/-- What the environment reports for the `read` call of one iteration. -/
inductive ReadRes where
  | eof
  | data (chunk : List Nat)
  | err (e : Errno)
deriving DecidableEq

/-- Environment of one slow-path iteration: the read result, whether the
rotate signal was delivered while the engine was between the previous
unblock and this read, the results of the bracketing sigprocmask and
localtime calls, the per-sink environments, and how many rotate signals
were delivered during this iteration's distribution (they are blocked and
observed at the unblock). -/
structure IterEnv where
  readRes : ReadRes
  sigDuringRead : Bool
  blockOk : Bool
  timeOk : Bool
  unblockOk : Bool
  sinkEnvs : List SinkEnv
  sigDuringDist : Nat
deriving DecidableEq

/-- Trace of one slow-path iteration. -/
structure IterTrace where
  forced : Bool
  chunkRead : List Nat
  readFailed : Bool
  distributed : Bool
  opened : List Bool
  rets : List Int
  delivered : List (List Nat)
  requests : List (List Nat)
  outcomes : List WOutcome
  aborted : Bool
deriving DecidableEq

/-- The all-default iteration trace (used for the EOF exit). -/
def emptyTrace : IterTrace := ⟨false, [], false, false, [], [], [], [], [], false⟩

/-- Engine state carried across slow-path iterations: the rotate-pending
flag, the per-sink states, and the contents of the read buffer (which
persists across iterations in C). -/
structure EngState where
  flag : Bool
  sinks : List State
  buf : List Nat
deriving DecidableEq

/-- The distribution half of a slow-path iteration (pipelog.c lines
627-694): block SIGHUP, capture local time when any sink is
rotation-enabled, run the distribution loop, unblock SIGHUP (at which
point rotate signals delivered during the distribution are observed). -/
def distributePhase (fl : Flags) (anyRot : Bool) (outs : List Output) (st : EngState)
    (env : IterEnv) (forced : Bool) (rcount : Int) (buf : List Nat)
    (flagPre : Bool) (chunkRead : List Nat) (readFailed : Bool) :
    EngState × Option Status × IterTrace :=
  if env.blockOk = false then
    (⟨flagPre, st.sinks, buf⟩, some .error,
     ⟨forced, chunkRead, readFailed, false, [], [], [], [], [], true⟩)
  else if anyRot ∧ env.timeOk = false then
    (⟨flagPre, st.sinks, buf⟩, some .error,
     ⟨forced, chunkRead, readFailed, false, [], [], [], [], [], true⟩)
  else
    let tickFlags : Flags := { fl with forceRotate := fl.forceRotate || forced }
    let dr := distAll tickFlags buf (usize rcount) outs st.sinks env.sinkEnvs
    match dr.halt with
    | some s =>
      (⟨flagPre, dr.states, buf⟩, some s,
       ⟨forced, chunkRead, readFailed, true, dr.opened, dr.rets, dr.delivered,
        dr.requests, dr.outcomes, true⟩)
    | none =>
      if env.unblockOk = false then
        (⟨flagPre, dr.states, buf⟩, some .error,
         ⟨forced, chunkRead, readFailed, true, dr.opened, dr.rets, dr.delivered,
          dr.requests, dr.outcomes, true⟩)
      else
        (⟨applySignals env.sigDuringDist flagPre, dr.states, buf⟩, none,
         ⟨forced, chunkRead, readFailed, true, dr.opened, dr.rets, dr.delivered,
          dr.requests, dr.outcomes, false⟩)

/-- One iteration of the slow-path loop (pipelog.c lines 599-695).  A
pending rotate flag is consumed and makes a force-rotate iteration with
`rcount = 0`; otherwise the input is read: 0 is end-of-stream (Success),
an EINTR error with the rotate flag set while reading is absorbed as a
force-rotate iteration with `rcount` LEFT AT -1 (the C slip), and any
other read error terminates.  Then the chunk is distributed. -/
def slowIter (fl : Flags) (anyRot : Bool) (outs : List Output) (st : EngState)
    (env : IterEnv) : EngState × Option Status × IterTrace :=
  if st.flag then
    distributePhase fl anyRot outs st env true 0 st.buf false [] false
  else
    match env.readRes with
    | .eof => (st, some .success, emptyTrace)
    | .data c0 =>
      let c := c0.take BUFSIZ
      distributePhase fl anyRot outs st env false (Int.ofNat c.length) c
        env.sigDuringRead c false
    | .err e =>
      if e = EINTR ∧ env.sigDuringRead = true then
        distributePhase fl anyRot outs st env true (-1) st.buf false [] true
      else
        (⟨st.flag || env.sigDuringRead, st.sinks, st.buf⟩,
         some (if e = EINTR then .interrupted else .error),
         ⟨false, [], true, false, [], [], [], [], [], true⟩)

/-- The slow-path loop: run iterations until one terminates or the supplied
environment list ends.  Returns the iteration traces, the final status
(`none` when the environment ran out), and the final engine state. -/
def runSlow (fl : Flags) (anyRot : Bool) (outs : List Output) :
    EngState → List IterEnv → List IterTrace × Option Status × EngState
  | st, [] => ([], none, st)
  | st, e :: es =>
    let r := slowIter fl anyRot outs st e
    match r.2.1 with
    | some s => ([r.2.2], some s, r.1)
    | none =>
      let rr := runSlow fl anyRot outs r.1 es
      (r.2.2 :: rr.1, rr.2.1, rr.2.2)

/-- Concatenation of all bytes read from the input over a run. -/
def readsOf (trs : List IterTrace) : List Nat :=
  (trs.map (fun t => t.chunkRead)).flatten

/-- Concatenation of all bytes delivered to sink `i` over a run. -/
def deliveredOf (i : Nat) (trs : List IterTrace) : List Nat :=
  (trs.map (fun t => t.delivered.getD i [])).flatten

/-- Exit code mapping of main (main.c line 377):
`status == PIPELOG_INTERRUPTED && reveiced_sigint ? PIPELOG_SUCCESS : status`. -/
def mainExitCode (s : Status) (receivedSigint : Bool) : Nat :=
  if s = .interrupted ∧ receivedSigint = true then statusCode .success else statusCode s

/-- Whether a filename contains a strftime directive
(`strchr(out->filename, (percent)) != NULL`, pipelog.c line 334). -/
def hasPercent (s : String) : Bool := s.data.contains ('%')

/-- Whether any sink is rotation-enabled (the `any_rotate` accumulator of
the initialization loop). -/
def anyRotateOf (outs : List Output) : Bool :=
  outs.any (fun o =>
    match o.filename with
    | some f => hasPercent f
    | none => false)

/-- Syscall results consumed while initializing one sink, one field per
call site of pipelog.c lines 320-451, in program order. -/
structure InitEnv where
  strftimeR : Except Errno String
  allocOk : Bool
  open1 : Except Errno Nat
  mkdirs : Except Errno Unit
  open2 : Except Errno Nat
  seek : Except Errno Unit
  linkMkdirs : Except Errno Unit
  unlinkR : Except Errno Unit
  realpathR : Except Errno String
  symlinkR : Except Errno Unit
deriving DecidableEq

/-- The open-with-retry sequence of the initialization loop (lines
360-380), including the `errnum == EINTR ? PIPELOG_INTERRUPTED :
PIPELOG_ERROR` status mapping of its failure paths. -/
def initOpenPhase (env : InitEnv) : Except (Status × Errno) Nat :=
  match env.open1 with
  | .ok fd => .ok fd
  | .error e =>
    if e = ENOENT then
      match env.mkdirs with
      | .error e2 => .error (if e2 = EINTR then .interrupted else .error, e2)
      | .ok _ =>
        match env.open2 with
        | .ok fd => .ok fd
        | .error e2 => .error (if e2 = EINTR then .interrupted else .error, e2)
    else .error (if e = EINTR then .interrupted else .error, e)

/-- Initialization of one sink (pipelog.c lines 320-451).  A filename with
a descriptor other than -1, a missing filename with a negative descriptor,
or a link without filename fail with (Error, EINVAL).  A rendered name is
cached in the state ONLY when the filename contains a format directive;
a plain filename leaves the cached name NULL.  The file is opened with
retry, seeked to end in splice mode (tolerating EPIPE), and the symlink is
created (mkdirs, unlink tolerating ENOENT, realpath, symlink). -/
def initEntry (useSplice : Bool) (out : Output) (env : InitEnv) :
    Except (Status × Errno) State :=
  match out.filename with
  | some f =>
    if out.fd ≠ -1 then .error (.error, EINVAL)
    else
      let rotate := hasPercent f
      let nameRes : Except (Status × Errno) (Option String) :=
        if rotate then
          match env.strftimeR with
          | .error e => .error (.error, e)
          | .ok rendered =>
            if env.allocOk then .ok (some rendered) else .error (.error, ENOMEM)
        else .ok none
      match nameRes with
      | .error x => .error x
      | .ok stName =>
        match initOpenPhase env with
        | .error x => .error x
        | .ok fd =>
          let seekRes : Except (Status × Errno) Unit :=
            if useSplice then
              match env.seek with
              | .error e => if e ≠ EPIPE then .error (.error, e) else .ok ()
              | .ok _ => .ok ()
            else .ok ()
          match seekRes with
          | .error x => .error x
          | .ok _ =>
            match out.link with
            | none => .ok ⟨stName, (fd : Int)⟩
            | some _ =>
              match env.linkMkdirs with
              | .error e => .error (if e = EINTR then .interrupted else .error, e)
              | .ok _ =>
                match env.unlinkR with
                | .error e =>
                  if e ≠ ENOENT then .error (.error, e)
                  else
                    match env.realpathR with
                    | .error e2 => .error (if e2 = EINTR then .interrupted else .error, e2)
                    | .ok _ =>
                      match env.symlinkR with
                      | .error e2 => .error (if e2 = EINTR then .interrupted else .error, e2)
                      | .ok _ => .ok ⟨stName, (fd : Int)⟩
                | .ok _ =>
                  match env.realpathR with
                  | .error e2 => .error (if e2 = EINTR then .interrupted else .error, e2)
                  | .ok _ =>
                    match env.symlinkR with
                    | .error e2 => .error (if e2 = EINTR then .interrupted else .error, e2)
                    | .ok _ => .ok ⟨stName, (fd : Int)⟩
  | none =>
    if out.fd < 0 then .error (.error, EINVAL)
    else
      match out.link with
      | some _ => .error (.error, EINVAL)
      | none => .ok ⟨none, out.fd⟩

/-- The initialization loop of `pipelog` (lines 319-451): initialize sinks
in input order, stopping at the first failure; on failure the states of
the already-initialized sinks (those with index below `init_count`) are
carried along for teardown. -/
def pipelogInit (useSplice : Bool) :
    List (Output × InitEnv) → Except (Status × Errno × List State) (List State)
  | [] => .ok []
  | (o, e) :: rest =>
    match initEntry useSplice o e with
    | .error (s, en) => .error (s, en, [])
    | .ok st =>
      match pipelogInit useSplice rest with
      | .error (s, en, sts) => .error (s, en, st :: sts)
      | .ok sts => .ok (st :: sts)

/-- The teardown loop of `pipelog` (lines 699-708): close exactly the
descriptors of sinks that are still valid (`fd > -1`) and were opened by
the engine itself (`output[index].filename != NULL`), over the first
`init_count` sinks. -/
def cleanupClosed (pairs : List (Output × State)) : List Int :=
  pairs.filterMap (fun p =>
    if (-1 : Int) < p.2.fd ∧ p.1.filename.isSome = true then some p.2.fd else none)

/-- Observable outcome of one `pipelog` call: the iteration traces of the
copy loop, the status, the errno reported on an initialization failure,
the final sink states, and the descriptors closed during teardown. -/
structure RunOutcome where
  traces : List IterTrace
  statusR : Option Status
  errnoR : Option Errno
  finalStates : List State
  closed : List Int
deriving DecidableEq

/-- A `pipelog` call running the slow-path engine: initialize all sinks
(failures tear down the partially initialized prefix), run the slow-path
copy loop, and close engine-owned descriptors on the way out. -/
def pipelogRun (fl : Flags) (useSplice : Bool) (l : List (Output × InitEnv))
    (renvs : List IterEnv) : RunOutcome :=
  let outs := l.map (fun p => p.1)
  match pipelogInit useSplice l with
  | .error (s, e, sts) => ⟨[], some s, some e, sts, cleanupClosed (outs.zip sts)⟩
  | .ok sts =>
    let r := runSlow fl (anyRotateOf outs) outs ⟨false, sts, []⟩ renvs
    ⟨r.1, r.2.1, none, r.2.2.sinks, cleanupClosed (outs.zip r.2.2.sinks)⟩

/-- Whether an output entry violates the sink-spec invariant checked at
pipelog.c lines 324-332 and 430-447: a filename together with a descriptor
other than -1, no filename with a negative descriptor, or a link without a
filename. -/
def violatesSpec (o : Output) : Bool :=
  match o.filename with
  | some _ => o.fd ≠ -1
  | none => decide (o.fd < 0) || o.link.isSome

/-- An empty flag word (PIPELOG_NONE). -/
def flagsNone : Flags := ⟨false, false, false, false, false, false⟩

/-- A tick environment in which every syscall succeeds, the pattern renders
to "log", and reopen yields descriptor 6 (7 after the ENOENT retry). -/
def tickOkSame : TickEnv :=
  ⟨.ok ("log"), true, true, .ok 6, .ok (), .ok 7, .ok (), .ok (), .ok ("abs"), true⟩

/-- Concrete slow-path run refuting verbatim delivery as stated: a single
inherited sink whose descriptor stays valid for the whole run and is never
marked absent, but whose second write of the first chunk fails with EAGAIN. -/
def c1Run : List IterTrace × Option Status × EngState :=
  runSlow flagsNone false [⟨none, none, 1⟩] ⟨false, [⟨none, 1⟩], []⟩
    [⟨.data [1, 2], false, true, true, true, [⟨tickOkSame, [.ok 1, .err EAGAIN]⟩], 0⟩,
     ⟨.data [3], false, true, true, true, [⟨tickOkSame, [.ok 1]⟩], 0⟩,
     ⟨.eof, false, true, true, true, [], 0⟩]

/-- Concrete slow-path run for the amended verbatim-delivery claim: two
chunks fully delivered, then end of stream. -/
def c1GoodRun : List IterTrace × Option Status × EngState :=
  runSlow flagsNone false [⟨none, none, 1⟩] ⟨false, [⟨none, 1⟩], []⟩
    [⟨.data [4, 5], false, true, true, true, [⟨tickOkSame, [.ok 2]⟩], 0⟩,
     ⟨.data [6], false, true, true, true, [⟨tickOkSame, [.ok 1]⟩], 0⟩,
     ⟨.eof, false, true, true, true, [], 0⟩]

/-- A path-sink specification whose filename contains no format directive. -/
def c2Out : Output := ⟨some ("access.log"), none, -1⟩

/-- Initialization environment for `c2Out` in which every syscall succeeds
and the file opens as descriptor 5. -/
def c2Init : InitEnv :=
  ⟨.ok ("access.log"), true, .ok 5, .ok (), .ok 5, .ok (), .ok (), .ok (), .ok ("x"), .ok ()⟩

/-- Tick environment for `c2Out` in which rendering succeeds (a pattern
without directives renders to itself) and a reopen would succeed. -/
def c2Tick : TickEnv :=
  ⟨.ok ("access.log"), true, true, .ok 6, .ok (), .ok 6, .ok (), .ok (), .ok ("x"), true⟩

/-- A rotation-enabled sink writing to a fresh file per hour. -/
def c4Out : Output := ⟨some ("log-%H"), none, -1⟩

/-- Tick environment for `c4Out`: renders to "log-03", reopen succeeds with
descriptor 6. -/
def c4Tick : TickEnv :=
  ⟨.ok ("log-03"), true, true, .ok 6, .ok (), .ok 6, .ok (), .ok (), .ok ("a"), true⟩

/-- Concrete slow-path run exhibiting the EINTR force-rotate slip: a chunk
is read and delivered, then `read` fails with EINTR while a rotate signal
is pending. -/
def c4Run : List IterTrace × Option Status × EngState :=
  runSlow flagsNone true [c4Out] ⟨false, [⟨some ("log-03"), 5⟩], []⟩
    [⟨.data [9, 9], false, true, true, true, [⟨c4Tick, [.ok 8192]⟩], 0⟩,
     ⟨.err EINTR, true, true, true, true, [⟨c4Tick, [.err EAGAIN]⟩], 0⟩]

/-- Iteration environment of the signal-coalescing run: read one chunk,
deliver it, and receive `k` rotate signals during the distribution. -/
def c9Env (k : Nat) (c : List Nat) : IterEnv :=
  ⟨.data c, false, true, true, true, [⟨tickOkSame, [.ok 8192]⟩], k⟩

/-- Three-iteration slow-path run on one rotation-enabled sink whose name
does not change, with `k` rotate signals delivered during the first
iteration's distribution and none afterwards. -/
def c9Run (k : Nat) : List IterTrace × Option Status × EngState :=
  runSlow flagsNone true [⟨some ("log-%H"), none, -1⟩] ⟨false, [⟨some ("log"), 5⟩], []⟩
    [c9Env k [1], c9Env 0 [2], c9Env 0 [3]]

/-- Initialization environment in which every syscall succeeds and the file
opens as descriptor 5. -/
def initOk5 : InitEnv :=
  ⟨.ok ("a"), true, .ok 5, .ok (), .ok 5, .ok (), .ok (), .ok (), .ok ("x"), .ok ()⟩

/-- Initialization environment whose first `open` fails with EINTR. -/
def initEintr : InitEnv :=
  ⟨.ok ("a"), true, .error EINTR, .ok (), .ok 5, .ok (), .ok (), .ok (), .ok ("x"), .ok ()⟩

/-- An output entry violating the sink-spec invariant: a link with no
filename. -/
def c10Bad : Output := ⟨none, some ("lnk"), 1⟩

/-- One slow-path iteration on a single inherited sink with descriptor
`fd`, reading the chunk `c`, whose first write fails with errno `e`. -/
def c5Iter (fl : Flags) (e : Errno) (fd : Nat) (c : List Nat) (rest : List WriteStep)
    (te : TickEnv) : EngState × Option Status × IterTrace :=
  slowIter fl false [⟨none, none, -1⟩] ⟨false, [⟨none, (fd : Int)⟩], []⟩
    ⟨.data c, false, true, true, true, [⟨te, .err e :: rest⟩], 0⟩

/-- Once the rotate flag is set, further signal deliveries leave it set. -/
theorem applySignals_true (k : Nat) : applySignals k true = true := by
  induction k with
  | zero => rfl
  | succ n ih => simpa [applySignals, handle_sighup] using ih

/-- Any positive number of rotate-signal deliveries sets the flag. -/
theorem applySignals_pos (k : Nat) (hk : 1 ≤ k) (b : Bool) : applySignals k b = true := by
  cases k with
  | zero => omega
  | succ n => simpa [applySignals, handle_sighup] using applySignals_true n

/-- A nonnegative read count below 2^64 is unchanged by the unsigned view. -/
theorem usize_ofNat (n : Nat) (h : n ≤ BUFSIZ) : usize (Int.ofNat n) = n := by
  simp only [BUFSIZ] at h
  simp only [usize, Int.ofNat_eq_natCast]
  omega

/-- If the write loop ran to completion, the bytes it delivered from
position `offset` on are exactly the first `bound` buffer bytes from
`offset` on. -/
theorem writeChunkAux_done (eowe : Bool) (chunk : List Nat) (bound : Nat)
    (hb : bound ≤ chunk.length) :
    ∀ (evs : List WriteStep) (offset : Nat),
      (writeChunkAux eowe chunk bound offset evs).2.2 = .done →
      (writeChunkAux eowe chunk bound offset evs).1 = (chunk.take bound).drop offset := by
  intro evs
  induction evs with
  | nil =>
    intro offset hdone
    simp only [writeChunkAux] at hdone ⊢
    by_cases hlt : offset < bound
    · simp [hlt] at hdone
    · simp only [hlt, if_false]
      rw [List.drop_eq_nil_of_le]
      rw [List.length_take]
      omega
  | cons ev rest ih =>
    intro offset hdone
    cases ev with
    | ok n =>
      simp only [writeChunkAux] at hdone ⊢
      by_cases hlt : offset < bound
      · simp only [hlt, if_true] at hdone ⊢
        have hrec := ih (offset + min n (bound - offset)) hdone
        rw [hrec]
        have hm : min n (bound - offset) ≤ bound - offset := Nat.min_le_right _ _
        rw [List.drop_take, List.drop_take]
        rw [show bound - (offset + min n (bound - offset)) =
              (bound - offset) - min n (bound - offset) by omega]
        rw [show List.take (bound - offset) (List.drop offset chunk) =
              List.take (min n (bound - offset) + (bound - offset - min n (bound - offset)))
                (List.drop offset chunk) by
            congr 1
            omega]
        rw [List.take_add, List.drop_drop]
      · simp only [hlt, if_false]
        rw [List.drop_eq_nil_of_le]
        rw [List.length_take]
        omega
    | err e =>
      simp only [writeChunkAux] at hdone ⊢
      by_cases hlt : offset < bound
      · rw [if_pos hlt] at hdone
        by_cases h1 : e = EINTR
        · rw [if_pos h1] at hdone
          simp at hdone
        · rw [if_neg h1] at hdone
          by_cases h2 : eowe = true
          · rw [if_pos h2] at hdone
            simp at hdone
          · rw [if_neg h2] at hdone
            by_cases h3 : e = EAGAIN
            · rw [if_pos h3] at hdone
              simp at hdone
            · rw [if_neg h3] at hdone
              simp at hdone
      · simp only [hlt, if_false]
        rw [List.drop_eq_nil_of_le]
        rw [List.length_take]
        omega

/-- If the distribution loop obtained a valid descriptor for sink `i` and
that sink's write loop ran to completion, the sink received exactly the
first `bound` bytes of the buffer. -/
theorem distAll_delivered (fl : Flags) (chunk : List Nat) (bound : Nat)
    (hb : bound ≤ chunk.length) :
    ∀ (outs : List Output) (sts : List State) (envs : List SinkEnv) (i : Nat),
      (-1 : Int) < (distAll fl chunk bound outs sts envs).rets.getD i (-1) →
      (distAll fl chunk bound outs sts envs).outcomes.getD i .starved = .done →
      (distAll fl chunk bound outs sts envs).delivered.getD i [] = chunk.take bound := by
  intro outs
  induction outs with
  | nil =>
    intro sts envs i h1 h2
    simp [distAll] at h1
  | cons o os ih =>
    intro sts envs i h1 h2
    cases sts with
    | nil =>
      cases envs with
      | nil => simp [distAll] at h1
      | cons e es => simp [distAll] at h1
    | cons s ss =>
      cases envs with
      | nil => simp [distAll] at h1
      | cons e es =>
        simp only [distAll] at h1 h2 ⊢
        by_cases hret : (-1 : Int) < (get_outfd o s fl e.tick).ret
        · rw [if_pos hret] at h1 h2 ⊢
          by_cases hint :
              (writeChunkAux fl.exitOnWriteError chunk bound 0 e.writes).2.2 = .interrupted
          · rw [if_pos hint] at h1 h2 ⊢
            cases i with
            | zero => rw [hint] at h2; simp at h2
            | succ j => simp at h1
          · rw [if_neg hint] at h1 h2 ⊢
            by_cases hfat :
                (writeChunkAux fl.exitOnWriteError chunk bound 0 e.writes).2.2 = .fatal
            · rw [if_pos hfat] at h1 h2 ⊢
              cases i with
              | zero => rw [hfat] at h2; simp at h2
              | succ j => simp at h1
            · rw [if_neg hfat] at h1 h2 ⊢
              cases i with
              | zero =>
                simp only [List.getD_cons_zero] at h2 ⊢
                have := writeChunkAux_done fl.exitOnWriteError chunk bound hb e.writes 0 h2
                simpa using this
              | succ j =>
                simp only [List.getD_cons_succ] at h1 h2 ⊢
                exact ih ss es j h1 h2
        · rw [if_neg hret] at h1 h2 ⊢
          by_cases heowe : fl.exitOnWriteError = false
          · rw [if_pos heowe] at h1 h2 ⊢
            cases i with
            | zero => simp at h1; omega
            | succ j => simp at h1
          · rw [if_neg heowe] at h1 h2 ⊢
            cases i with
            | zero => simp at h1; omega
            | succ j =>
              simp only [List.getD_cons_succ] at h1 h2 ⊢
              exact ih ss es j h1 h2

/-- The trace of a distribution phase carries the chunk and read-failure
information it was given. -/
theorem distributePhase_fields (fl : Flags) (anyRot : Bool) (outs : List Output)
    (st : EngState) (env : IterEnv) (forced : Bool) (rcount : Int) (buf : List Nat)
    (flagPre : Bool) (chunkRead : List Nat) (readFailed : Bool) :
    (distributePhase fl anyRot outs st env forced rcount buf flagPre
        chunkRead readFailed).2.2.readFailed = readFailed ∧
    (distributePhase fl anyRot outs st env forced rcount buf flagPre
        chunkRead readFailed).2.2.chunkRead = chunkRead := by
  unfold distributePhase
  by_cases h1 : env.blockOk = false
  · simp [h1]
  · rw [if_neg h1]
    by_cases h2 : anyRot ∧ env.timeOk = false
    · simp [h2]
    · rw [if_neg h2]
      simp only
      cases hh : (distAll { fl with forceRotate := fl.forceRotate || forced } buf
          (usize rcount) outs st.sinks env.sinkEnvs).halt
      · by_cases h3 : env.unblockOk = false
        · simp [hh, h3]
        · simp [hh, h3]
      · simp [hh]

/-- If a distribution phase was not aborted and sink `i` had a valid
descriptor and a completed write loop, the phase delivered to sink `i`
exactly the chunk that was read. -/
theorem distributePhase_delivered (fl : Flags) (anyRot : Bool) (outs : List Output)
    (st : EngState) (env : IterEnv) (forced : Bool) (rcount : Int) (buf : List Nat)
    (flagPre : Bool) (chunkRead : List Nat) (readFailed : Bool) (i : Nat)
    (hbound : usize rcount ≤ buf.length)
    (hchunk : chunkRead = buf.take (usize rcount)) :
    (distributePhase fl anyRot outs st env forced rcount buf flagPre
        chunkRead readFailed).2.2.aborted = false →
    ((distributePhase fl anyRot outs st env forced rcount buf flagPre
        chunkRead readFailed).2.2.distributed = true →
      ((-1 : Int) < (distributePhase fl anyRot outs st env forced rcount buf flagPre
          chunkRead readFailed).2.2.rets.getD i (-1) ∧
       (distributePhase fl anyRot outs st env forced rcount buf flagPre
          chunkRead readFailed).2.2.outcomes.getD i .starved = .done)) →
    (distributePhase fl anyRot outs st env forced rcount buf flagPre
        chunkRead readFailed).2.2.delivered.getD i [] = chunkRead := by
  unfold distributePhase
  by_cases h1 : env.blockOk = false
  · simp [h1]
  · rw [if_neg h1]
    by_cases h2 : anyRot ∧ env.timeOk = false
    · simp [h2]
    · rw [if_neg h2]
      simp only
      cases hh : (distAll { fl with forceRotate := fl.forceRotate || forced } buf
          (usize rcount) outs st.sinks env.sinkEnvs).halt
      · by_cases h3 : env.unblockOk = false
        · simp [hh, h3]
        · simp only [hh, h3, Bool.false_eq_true, if_false]
          intro _ hok
          have hok2 := hok rfl
          rw [hchunk]
          exact distAll_delivered _ buf (usize rcount) hbound outs st.sinks env.sinkEnvs i
            hok2.1 hok2.2
      · simp only [hh]
        intro hab
        simp at hab

/-- If a slow-path iteration had no read failure, was not aborted, and sink
`i` had a valid descriptor with a completed write loop, the iteration
delivered to sink `i` exactly the bytes it read. -/
theorem slowIter_delivered (fl : Flags) (anyRot : Bool) (outs : List Output)
    (st : EngState) (env : IterEnv) (i : Nat) :
    (slowIter fl anyRot outs st env).2.2.readFailed = false →
    (slowIter fl anyRot outs st env).2.2.aborted = false →
    ((slowIter fl anyRot outs st env).2.2.distributed = true →
      ((-1 : Int) < (slowIter fl anyRot outs st env).2.2.rets.getD i (-1) ∧
       (slowIter fl anyRot outs st env).2.2.outcomes.getD i .starved = .done)) →
    (slowIter fl anyRot outs st env).2.2.delivered.getD i [] =
      (slowIter fl anyRot outs st env).2.2.chunkRead := by
  unfold slowIter
  by_cases hflag : st.flag
  · rw [if_pos hflag]
    intro _ hab hok
    rw [(distributePhase_fields fl anyRot outs st env true 0 st.buf false [] false).2]
    refine distributePhase_delivered fl anyRot outs st env true 0 st.buf false [] false i
      ?_ ?_ hab hok
    · simp [usize]
    · simp [usize]
  · rw [if_neg hflag]
    cases env.readRes with
    | eof => intro _ _ _; simp [emptyTrace]
    | data c0 =>
      intro _ hab hok
      rw [(distributePhase_fields fl anyRot outs st env false
        (Int.ofNat (c0.take BUFSIZ).length) (c0.take BUFSIZ) env.sigDuringRead
        (c0.take BUFSIZ) false).2]
      have hlen : (c0.take BUFSIZ).length ≤ BUFSIZ := by
        rw [List.length_take]
        exact Nat.min_le_left _ _
      have hu : usize (Int.ofNat (c0.take BUFSIZ).length) = (c0.take BUFSIZ).length :=
        usize_ofNat _ hlen
      refine distributePhase_delivered fl anyRot outs st env false
        (Int.ofNat (c0.take BUFSIZ).length) (c0.take BUFSIZ) env.sigDuringRead
        (c0.take BUFSIZ) false i ?_ ?_ hab hok
      · rw [hu]
      · rw [hu, List.take_length]
    | err e =>
      dsimp only
      by_cases habs : e = EINTR ∧ env.sigDuringRead = true
      · rw [if_pos habs]
        intro hrf
        rw [(distributePhase_fields fl anyRot outs st env true (-1) st.buf false
          [] true).1] at hrf
        simp at hrf
      · rw [if_neg habs]
        intro hrf
        simp at hrf

/-- Reads of a run distribute over its first iteration. -/
theorem readsOf_cons (t : IterTrace) (ts : List IterTrace) :
    readsOf (t :: ts) = t.chunkRead ++ readsOf ts := by
  simp [readsOf]

/-- Deliveries of a run distribute over its first iteration. -/
theorem deliveredOf_cons (i : Nat) (t : IterTrace) (ts : List IterTrace) :
    deliveredOf i (t :: ts) = t.delivered.getD i [] ++ deliveredOf i ts := by
  simp [deliveredOf]

/-- C1 amended: in any slow-path run in which no read error occurs and the
engine is never terminated abnormally, a sink whose descriptor is valid at
every distribution and whose write loop always runs to completion (no
write failure of any kind, EAGAIN included) receives exactly the bytes
read from the input, in order. -/
theorem slow_path_verbatim (fl : Flags) (anyRot : Bool) (outs : List Output) (i : Nat)
    (st0 : EngState) (envs : List IterEnv)
    (H1 : ∀ t ∈ (runSlow fl anyRot outs st0 envs).1, t.readFailed = false)
    (H0 : ∀ t ∈ (runSlow fl anyRot outs st0 envs).1, t.aborted = false)
    (H2 : ∀ t ∈ (runSlow fl anyRot outs st0 envs).1, t.distributed = true →
      ((-1 : Int) < t.rets.getD i (-1) ∧ t.outcomes.getD i .starved = .done)) :
    deliveredOf i (runSlow fl anyRot outs st0 envs).1 =
      readsOf (runSlow fl anyRot outs st0 envs).1 := by
  induction envs generalizing st0 with
  | nil =>
    simp [runSlow, readsOf, deliveredOf]
  | cons e es ihe =>
    simp only [runSlow] at H1 H0 H2 ⊢
    cases hs : (slowIter fl anyRot outs st0 e).2.1 with
    | some s =>
      rw [hs] at H1 H0 H2
      dsimp only at H1 H0 H2 ⊢
      rw [deliveredOf_cons, readsOf_cons]
      have hhead := slowIter_delivered fl anyRot outs st0 e i
        (H1 _ (by simp)) (H0 _ (by simp)) (H2 _ (by simp))
      rw [hhead]
      simp [readsOf, deliveredOf]
    | none =>
      rw [hs] at H1 H0 H2
      dsimp only at H1 H0 H2 ⊢
      rw [deliveredOf_cons, readsOf_cons]
      have hhead := slowIter_delivered fl anyRot outs st0 e i
        (H1 _ (by simp)) (H0 _ (by simp)) (H2 _ (by simp))
      rw [hhead]
      have htail := ihe (slowIter fl anyRot outs st0 e).1
        (fun t ht => H1 t (by simp [ht]))
        (fun t ht => H0 t (by simp [ht]))
        (fun t ht => H2 t (by simp [ht]))
      rw [htail]

/-- Every exit of the symlink-refresh block reports that `open` had been
attempted. -/
theorem linkPhase_opened (out : Output) (st2 : State) (fl : Flags) (env : TickEnv)
    (newName : Bool) (fd : Nat) : (linkPhase out st2 fl env newName fd).opened = true := by
  unfold linkPhase
  cases out.link
  · rfl
  · dsimp only
    by_cases hn : newName = true
    · rw [if_pos hn]
      cases env.unlinkR with
      | error e1 =>
        dsimp only
        by_cases h1 : e1 ≠ ENOENT
        · rw [if_pos h1]
          split_ifs <;> rfl
        · rw [if_neg h1]
          cases env.realpathR with
          | error e2 =>
            dsimp only
            split_ifs <;> rfl
          | ok abs =>
            dsimp only
            split_ifs <;> rfl
      | ok u =>
        dsimp only
        cases env.realpathR with
        | error e2 =>
          dsimp only
          split_ifs <;> rfl
        | ok abs =>
          dsimp only
          split_ifs <;> rfl
    · rw [if_neg hn]

/-- Every exit of the seek-then-link tail reports that `open` had been
attempted. -/
theorem seekLinkPhase_opened (out : Output) (st2 : State) (fl : Flags) (env : TickEnv)
    (newName : Bool) (fd : Nat) : (seekLinkPhase out st2 fl env newName fd).opened = true := by
  unfold seekLinkPhase
  by_cases hs : fl.splice = true
  · rw [if_pos hs]
    cases env.seek with
    | error e =>
      dsimp only
      by_cases h1 : e ≠ EPIPE
      · rw [if_pos h1]
        split_ifs <;> rfl
      · rw [if_neg h1]
        exact linkPhase_opened out st2 fl env newName fd
    | ok u => exact linkPhase_opened out st2 fl env newName fd
  · rw [if_neg hs]
    exact linkPhase_opened out st2 fl env newName fd

/-- A rendered path sink whose cached descriptor is absent attempts a
reopen on the next tick (given that rendering and the bookkeeping around
the reopen succeed). -/
theorem absent_descriptor_reopens (out2 : Output) (cached2 r2 : String) (fl : Flags)
    (te2 : TickEnv) (hr2 : te2.render = .ok r2) (hal2 : te2.allocOk = true)
    (hbl2 : fl.blockSighup = false) :
    (get_outfd out2 ⟨some cached2, -1⟩ fl te2).opened = true := by
  unfold get_outfd
  dsimp only
  rw [hr2]
  dsimp only
  rw [if_pos (by left; norm_num)]
  rw [if_neg (by simp [hbl2])]
  rw [if_neg (by simp [hal2])]
  cases openPhase te2 with
  | error e => rfl
  | ok fd2 => exact seekLinkPhase_opened _ _ _ _ _ _

/-- The distribution phase does not depend on how many rotate signals were
delivered during it beyond their effect on the flag. -/
theorem distributePhase_sig_congr (fl : Flags) (anyRot : Bool) (outs : List Output)
    (st : EngState) (rr : ReadRes) (sdr bo tmo uo : Bool) (se : List SinkEnv) (k k' : Nat)
    (forced : Bool) (rcount : Int) (buf : List Nat) (flagPre : Bool)
    (chunkRead : List Nat) (readFailed : Bool)
    (h : ∀ b, applySignals k b = applySignals k' b) :
    distributePhase fl anyRot outs st ⟨rr, sdr, bo, tmo, uo, se, k⟩ forced rcount buf
      flagPre chunkRead readFailed =
    distributePhase fl anyRot outs st ⟨rr, sdr, bo, tmo, uo, se, k'⟩ forced rcount buf
      flagPre chunkRead readFailed := by
  simp only [distributePhase, h]

/-- A slow-path iteration does not depend on how many rotate signals were
delivered during it beyond their effect on the flag. -/
theorem slowIter_sig_congr (fl : Flags) (anyRot : Bool) (outs : List Output)
    (st : EngState) (rr : ReadRes) (sdr bo tmo uo : Bool) (se : List SinkEnv) (k k' : Nat)
    (h : ∀ b, applySignals k b = applySignals k' b) :
    slowIter fl anyRot outs st ⟨rr, sdr, bo, tmo, uo, se, k⟩ =
    slowIter fl anyRot outs st ⟨rr, sdr, bo, tmo, uo, se, k'⟩ := by
  unfold slowIter
  by_cases hflag : st.flag = true
  · rw [if_pos hflag, if_pos hflag]
    exact distributePhase_sig_congr fl anyRot outs st rr sdr bo tmo uo se k k'
      true 0 st.buf false [] false h
  · rw [if_neg hflag, if_neg hflag]
    cases rr with
    | eof => rfl
    | data c0 =>
      dsimp only
      exact distributePhase_sig_congr fl anyRot outs st (.data c0) sdr bo tmo uo se k k'
        false (Int.ofNat (c0.take BUFSIZ).length) (c0.take BUFSIZ) sdr (c0.take BUFSIZ)
        false h
    | err e =>
      dsimp only
      by_cases habs : e = EINTR ∧ sdr = true
      · rw [if_pos habs, if_pos habs]
        exact distributePhase_sig_congr fl anyRot outs st (.err e) sdr bo tmo uo se k k'
          true (-1) st.buf false [] true h
      · rw [if_neg habs, if_neg habs]

/-- The slow-path loop is determined by the first iteration's result and
the remaining environments. -/
theorem runSlow_head_congr (fl : Flags) (anyRot : Bool) (outs : List Output)
    (st : EngState) (e e' : IterEnv) (es : List IterEnv)
    (h : slowIter fl anyRot outs st e = slowIter fl anyRot outs st e') :
    runSlow fl anyRot outs st (e :: es) = runSlow fl anyRot outs st (e' :: es) := by
  simp only [runSlow, h]

/-- C8: the process exit status maps the engine result as Success → 0,
Error → 1, and Interrupted → 0 exactly when a termination signal was
observed during the run; Interrupted without a termination signal yields
exit code 2. -/
theorem exit_code_mapping (b : Bool) :
    mainExitCode .success b = 0 ∧ mainExitCode .error b = 1 ∧
    (mainExitCode .interrupted b = 0 ↔ b = true) ∧
    mainExitCode .interrupted false = 2 := by
  cases b <;> simp [mainExitCode, statusCode]

/-- C3 counterexample: with a single INHERITED sink (standard output) and
no-splice clear, the code selects the fast path although no path-sink
exists, refuting "the fast path is selected iff exactly one path-sink
exists and no-splice is not set". -/
theorem splice_selection_counterexample :
    use_splice [⟨none, none, 1⟩] flagsNone = true ∧
    pathSinkCount [⟨none, none, 1⟩] = 0 ∧
    ¬ (use_splice [⟨none, none, 1⟩] flagsNone = true ↔
       (pathSinkCount [⟨none, none, 1⟩] = 1 ∧ flagsNone.noSplice = false)) := by
  decide

/-- C3 amended: the zero-copy fast path is selected iff exactly one sink of
either kind (path-backed or inherited) is configured and the no-splice
flag is not set. -/
theorem splice_selection_amended (outs : List Output) (fl : Flags) :
    use_splice outs fl = true ↔ (outs.length = 1 ∧ fl.noSplice = false) := by
  simp [use_splice]

/-- C2 (code bug): a path sink whose filename contains no format directive
never caches a rendered name (`initEntry` leaves it NULL), so `get_outfd`
returns its cached descriptor unchanged without ever reopening — even on a
force-rotate tick, and even when the cached descriptor is absent — although
the claim (and the usage text "If SIGHUP is sent to pipelog it re-opens
all it's open files") requires a reopen in both situations. -/
theorem static_sink_never_reopened :
    initEntry false c2Out c2Init = .ok ⟨none, 5⟩ ∧
    get_outfd c2Out ⟨none, 5⟩ { flagsNone with forceRotate := true } c2Tick =
      ⟨5, ⟨none, 5⟩, false, false, none, 0⟩ ∧
    get_outfd c2Out ⟨none, -1⟩ flagsNone c2Tick = ⟨-1, ⟨none, -1⟩, false, false, none, 0⟩ := by
  decide

/-- C4 (code bug): when `read` fails with EINTR while a rotate request is
pending, the iteration does become a force-rotate iteration (the flag is
consumed and the sink is reopened with force-rotate), but `rcount` is left
at -1 instead of 0; the write loop compares the `size_t` offset against it
as an unsigned value and issues a `write` request of 2^64 - 1 bytes from
the stale 8 KiB buffer, instead of writing zero bytes. -/
theorem eintr_rotate_not_zero_bytes :
    (c4Run.1.getD 1 emptyTrace).forced = true ∧
    (c4Run.1.getD 1 emptyTrace).chunkRead = [] ∧
    (c4Run.1.getD 1 emptyTrace).opened = [true] ∧
    c4Run.2.2.flag = false ∧
    (c4Run.1.getD 1 emptyTrace).requests.getD 0 [] = [2 ^ 64 - 1] ∧
    (c4Run.1.getD 1 emptyTrace).requests.getD 0 [] ≠ [] := by
  decide

/-- C1 counterexample: a run in which the sink is never disabled — its
descriptor is valid at every tick and is never marked absent — yet the
bytes written to it are not the bytes read, because one write failed with
EAGAIN and the rest of that chunk was dropped for the sink. -/
theorem verbatim_delivery_counterexample :
    (∀ t ∈ c1Run.1, t.distributed = true → t.rets.getD 0 (-1) = 1) ∧
    (∀ t ∈ c1Run.1, .disableBreak ∉ t.outcomes) ∧
    c1Run.2.2.sinks = [⟨none, 1⟩] ∧
    c1Run.2.1 = some .success ∧
    readsOf c1Run.1 = [1, 2, 3] ∧
    deliveredOf 0 c1Run.1 = [1, 3] ∧
    deliveredOf 0 c1Run.1 ≠ readsOf c1Run.1 := by
  decide

/-- C1 amended, witnessed on a concrete run: two chunks read and fully
written, then end of stream. -/
theorem slow_path_verbatim_witness :
    (∀ t ∈ c1GoodRun.1, t.readFailed = false) ∧
    (∀ t ∈ c1GoodRun.1, t.aborted = false) ∧
    (∀ t ∈ c1GoodRun.1, t.distributed = true →
      ((-1 : Int) < t.rets.getD 0 (-1) ∧ t.outcomes.getD 0 .starved = .done)) ∧
    deliveredOf 0 c1GoodRun.1 = readsOf c1GoodRun.1 :=
  ⟨by decide, by decide, by decide,
   slow_path_verbatim flagsNone false [⟨none, none, 1⟩] 0 ⟨false, [⟨none, 1⟩], []⟩
     [⟨.data [4, 5], false, true, true, true, [⟨tickOkSame, [.ok 2]⟩], 0⟩,
      ⟨.data [6], false, true, true, true, [⟨tickOkSame, [.ok 1]⟩], 0⟩,
      ⟨.eof, false, true, true, true, [], 0⟩]
     (by decide) (by decide) (by decide)⟩

/-- C9: rotate-signal requests are coalesced by a single level-triggered
flag: a run receiving k ≥ 1 rotate signals during one chunk distribution
is identical to the run receiving exactly one, and the sink is force-
reopened exactly once, on the next iteration, never k times. -/
theorem rotate_signal_coalescing (k : Nat) (hk : 1 ≤ k) :
    c9Run k = c9Run 1 ∧
    (c9Run k).1.map (fun t => t.forced) = [false, true, false] ∧
    (c9Run k).1.map (fun t => t.opened.getD 0 false) = [false, true, false] ∧
    (c9Run k).2.2.flag = false := by
  have h : ∀ b, applySignals k b = applySignals 1 b := by
    intro b
    rw [applySignals_pos k hk b, applySignals_pos 1 (le_refl 1) b]
  have h1 : c9Run k = c9Run 1 := by
    unfold c9Run c9Env
    exact runSlow_head_congr _ _ _ _ _ _ _
      (slowIter_sig_congr _ _ _ _ _ _ _ _ _ _ k 1 h)
  refine ⟨h1, ?_, ?_, ?_⟩ <;> rw [h1] <;> decide

/-- C9, witnessed at k = 3. -/
theorem rotate_signal_coalescing_witness :
    1 ≤ 3 ∧
    (c9Run 3 = c9Run 1 ∧
     (c9Run 3).1.map (fun t => t.forced) = [false, true, false] ∧
     (c9Run 3).1.map (fun t => t.opened.getD 0 false) = [false, true, false] ∧
     (c9Run 3).2.2.flag = false) :=
  ⟨by decide, rotate_signal_coalescing 3 (by decide)⟩

/-- C5: for a byte-write failure in the slow path, EINTR terminates the
engine with Interrupted; otherwise, under exit-on-write-error the engine
terminates with Error; otherwise EAGAIN breaks out of the sink's write
loop leaving its cached descriptor unchanged; any other errno marks the
sink's descriptor absent and breaks; in each case nothing more is written
to the sink this iteration.  A rendered path sink whose descriptor is
absent attempts a reopen on its next tick. -/
theorem write_error_policy (fl : Flags) (e : Errno) (fd : Nat) (c : List Nat)
    (rest : List WriteStep) (te : TickEnv) (hc : c ≠ []) :
    (e = EINTR → (c5Iter fl e fd c rest te).2.1 = some .interrupted ∧
      (c5Iter fl e fd c rest te).1.sinks = [⟨none, (fd : Int)⟩]) ∧
    (e ≠ EINTR → fl.exitOnWriteError = true →
      (c5Iter fl e fd c rest te).2.1 = some .error) ∧
    (e ≠ EINTR → fl.exitOnWriteError = false → e = EAGAIN →
      (c5Iter fl e fd c rest te).2.1 = none ∧
      (c5Iter fl e fd c rest te).1.sinks = [⟨none, (fd : Int)⟩]) ∧
    (e ≠ EINTR → fl.exitOnWriteError = false → e ≠ EAGAIN →
      (c5Iter fl e fd c rest te).2.1 = none ∧
      (c5Iter fl e fd c rest te).1.sinks = [⟨none, -1⟩]) ∧
    (c5Iter fl e fd c rest te).2.2.delivered = [[]] ∧
    (∀ (out2 : Output) (cached2 r2 : String) (te2 : TickEnv),
      te2.render = .ok r2 → te2.allocOk = true → fl.blockSighup = false →
      (get_outfd out2 ⟨some cached2, -1⟩ fl te2).opened = true) := by
  have hfd : (-1 : Int) < (fd : Int) :=
    lt_of_lt_of_le (by norm_num) (Int.ofNat_nonneg fd)
  have hlenpos : 0 < (c.take BUFSIZ).length := by
    rw [List.length_take]
    have := List.length_pos.mpr hc
    simp only [BUFSIZ]
    omega
  have hb : usize (Int.ofNat (c.take BUFSIZ).length) = (c.take BUFSIZ).length :=
    usize_ofNat _ (by rw [List.length_take]; exact Nat.min_le_left _ _)
  have hmin : 0 < BUFSIZ ⊓ c.length := by
    have := List.length_pos.mpr hc
    simp only [BUFSIZ]
    omega
  have hb2 : usize ((BUFSIZ : Int) ⊓ (c.length : Int)) = BUFSIZ ⊓ c.length := by
    rw [← Nat.cast_min]
    exact usize_ofNat _ (Nat.min_le_left _ _)
  refine ⟨?_, ?_, ?_, ?_, ?_, ?_⟩
  · intro h1
    simp only [EINTR] at h1
    constructor <;>
      simp [c5Iter, slowIter, distributePhase, distAll, get_outfd, writeChunkAux,
        EINTR, EAGAIN, hb, hb2, hmin, hfd, hlenpos, h1]
  · intro h1 h2
    simp only [EINTR] at h1
    simp [c5Iter, slowIter, distributePhase, distAll, get_outfd, writeChunkAux,
      EINTR, EAGAIN, hb, hb2, hmin, hfd, hlenpos, h1, h2]
  · intro h1 h2 h3
    simp only [EINTR] at h1
    simp only [EAGAIN] at h3
    constructor <;>
      simp [c5Iter, slowIter, distributePhase, distAll, get_outfd, writeChunkAux,
        applySignals, EINTR, EAGAIN, hb, hb2, hmin, hfd, hlenpos, h1, h2, h3]
  · intro h1 h2 h3
    simp only [EINTR] at h1
    simp only [EAGAIN] at h3
    constructor <;>
      simp [c5Iter, slowIter, distributePhase, distAll, get_outfd, writeChunkAux,
        applySignals, EINTR, EAGAIN, hb, hb2, hmin, hfd, hlenpos, h1, h2, h3]
  · by_cases h1 : e = 4
    · simp [c5Iter, slowIter, distributePhase, distAll, get_outfd, writeChunkAux,
        EINTR, EAGAIN, hb, hb2, hmin, hfd, hlenpos, h1]
    · by_cases h2 : fl.exitOnWriteError = true
      · simp [c5Iter, slowIter, distributePhase, distAll, get_outfd, writeChunkAux,
          EINTR, EAGAIN, hb, hb2, hmin, hfd, hlenpos, h1, h2]
      · by_cases h3 : e = 11
        · simp [c5Iter, slowIter, distributePhase, distAll, get_outfd, writeChunkAux,
            applySignals, EINTR, EAGAIN, hb, hb2, hmin, hfd, hlenpos, h1, h2, h3]
        · simp [c5Iter, slowIter, distributePhase, distAll, get_outfd, writeChunkAux,
            applySignals, EINTR, EAGAIN, hb, hb2, hmin, hfd, hlenpos, h1, h2, h3]
  · intro out2 cached2 r2 te2 hr2 hal2 hbl2
    exact absent_descriptor_reopens out2 cached2 r2 fl te2 hr2 hal2 hbl2

/-- C5, witnessed at a disabling write error (EPIPE) on descriptor 1 with
exit-on-write-error clear. -/
theorem write_error_policy_witness :
    ([0] : List Nat) ≠ [] ∧
    ((EPIPE = EINTR → (c5Iter flagsNone EPIPE 1 [0] [] tickOkSame).2.1 = some .interrupted ∧
        (c5Iter flagsNone EPIPE 1 [0] [] tickOkSame).1.sinks = [⟨none, ((1 : Nat) : Int)⟩]) ∧
     (EPIPE ≠ EINTR → flagsNone.exitOnWriteError = true →
        (c5Iter flagsNone EPIPE 1 [0] [] tickOkSame).2.1 = some .error) ∧
     (EPIPE ≠ EINTR → flagsNone.exitOnWriteError = false → EPIPE = EAGAIN →
        (c5Iter flagsNone EPIPE 1 [0] [] tickOkSame).2.1 = none ∧
        (c5Iter flagsNone EPIPE 1 [0] [] tickOkSame).1.sinks = [⟨none, ((1 : Nat) : Int)⟩]) ∧
     (EPIPE ≠ EINTR → flagsNone.exitOnWriteError = false → EPIPE ≠ EAGAIN →
        (c5Iter flagsNone EPIPE 1 [0] [] tickOkSame).2.1 = none ∧
        (c5Iter flagsNone EPIPE 1 [0] [] tickOkSame).1.sinks = [⟨none, -1⟩]) ∧
     (c5Iter flagsNone EPIPE 1 [0] [] tickOkSame).2.2.delivered = [[]] ∧
     (∀ (out2 : Output) (cached2 r2 : String) (te2 : TickEnv),
        te2.render = .ok r2 → te2.allocOk = true → flagsNone.blockSighup = false →
        (get_outfd out2 ⟨some cached2, -1⟩ flagsNone te2).opened = true)) :=
  ⟨by decide, write_error_policy flagsNone EPIPE 1 [0] [] tickOkSame (by decide)⟩

/-- C6: after a successful reopen of a rendered path sink with a
configured link (all link syscalls succeeding and, in the slow path,
splice mode off), the symlink entry is touched — unlink tolerating ENOENT,
then symlink to the absolute path of the newly opened file — exactly when
the rendered name changed; a force-rotate reopening the same name, and
any tick without a reopen, leave the link entry untouched.  The reopen
itself happens exactly when the descriptor is absent, the name changed,
or force-rotate is set. -/
theorem link_refresh_policy (out : Output) (stfd : Int) (fl : Flags) (env : TickEnv)
    (cached r L abs : String) (fd : Nat)
    (hr : env.render = .ok r)
    (hL : out.link = some L)
    (hbl : fl.blockSighup = false)
    (hal : env.allocOk = true)
    (hop : openPhase env = .ok fd)
    (hsp : fl.splice = false)
    (hun : env.unlinkR = .ok () ∨ env.unlinkR = .error ENOENT)
    (hrp : env.realpathR = .ok abs)
    (hsl : env.symlinkOk = true) :
    ((get_outfd out ⟨some cached, stfd⟩ fl env).linkSet = some abs ↔ r ≠ cached) ∧
    ((get_outfd out ⟨some cached, stfd⟩ fl env).linkTouched = true ↔ r ≠ cached) ∧
    ((get_outfd out ⟨some cached, stfd⟩ fl env).opened = true ↔
      (stfd < 0 ∨ r ≠ cached ∨ fl.forceRotate = true)) := by
  by_cases hnew : r = cached
  · by_cases hro : stfd < 0 ∨ fl.forceRotate = true
    · have hro2 : stfd < 0 ∨ (decide (r ≠ cached)) = true ∨ fl.forceRotate = true := by
        rcases hro with h | h
        · exact Or.inl h
        · exact Or.inr (Or.inr h)
      simp only [get_outfd, hr, if_pos hro2]
      rw [if_neg (by simp [hbl]), if_neg (by simp [hal]), hop]
      simp only [seekLinkPhase, hsp, Bool.false_eq_true, if_false, linkPhase, hL]
      rw [if_neg (by simp [hnew])]
      simp [hnew]
      tauto
    · have hro2 : ¬ (stfd < 0 ∨ (decide (r ≠ cached)) = true ∨ fl.forceRotate = true) := by
        simp only [hnew]
        simpa using hro
      obtain ⟨hroa, hrob⟩ := not_or.mp hro
      simp only [get_outfd, hr, if_neg hro2]
      refine ⟨by simp [hnew], by simp [hnew], by simp [hnew, hroa, hrob]⟩
  · have hro2 : stfd < 0 ∨ (decide (r ≠ cached)) = true ∨ fl.forceRotate = true := by
      refine Or.inr (Or.inl ?_)
      simp [hnew]
    simp only [get_outfd, hr, if_pos hro2]
    rw [if_neg (by simp [hbl]), if_neg (by simp [hal]), hop]
    simp only [seekLinkPhase, hsp, Bool.false_eq_true, if_false, linkPhase, hL]
    rw [if_pos (by simp [hnew])]
    rcases hun with hu | hu <;>
      simp [hu, hrp, hsl, ENOENT, hnew]

/-- C6, witnessed at a rotation with a changed name and a configured link,
all link syscalls succeeding. -/
theorem link_refresh_policy_witness :
    tickOkSame.render = .ok ("log") ∧
    (⟨some ("log-H"), some ("cur"), -1⟩ : Output).link = some ("cur") ∧
    openPhase tickOkSame = .ok 6 ∧
    (((get_outfd ⟨some ("log-H"), some ("cur"), -1⟩ ⟨some ("old"), 5⟩ flagsNone
        tickOkSame).linkSet = some ("abs") ↔ ("log" : String) ≠ ("old")) ∧
     ((get_outfd ⟨some ("log-H"), some ("cur"), -1⟩ ⟨some ("old"), 5⟩ flagsNone
        tickOkSame).linkTouched = true ↔ ("log" : String) ≠ ("old")) ∧
     ((get_outfd ⟨some ("log-H"), some ("cur"), -1⟩ ⟨some ("old"), 5⟩ flagsNone
        tickOkSame).opened = true ↔
       ((5 : Int) < 0 ∨ ("log" : String) ≠ ("old") ∨ flagsNone.forceRotate = true))) :=
  ⟨by decide, by decide, by decide,
   link_refresh_policy ⟨some ("log-H"), some ("cur"), -1⟩ 5 flagsNone tickOkSame
     ("old") ("log") ("cur") ("abs") 6 (by decide) (by decide) (by decide) (by decide)
     (by decide) (by decide) (Or.inl (by decide)) (by decide) (by decide)⟩

/-- An output entry violating the sink-spec invariant fails its
initialization immediately with (Error, EINVAL), before any syscall. -/
theorem initEntry_violates (us : Bool) (o : Output) (e : InitEnv)
    (h : violatesSpec o = true) : initEntry us o e = .error (.error, EINVAL) := by
  unfold violatesSpec at h
  unfold initEntry
  cases ho : o.filename with
  | some f =>
    rw [ho] at h
    dsimp only at h ⊢
    rw [if_pos (of_decide_eq_true h)]
  | none =>
    rw [ho] at h
    dsimp only at h ⊢
    by_cases hfd : o.fd < 0
    · rw [if_pos hfd]
    · rw [if_neg hfd]
      have hlink : o.link.isSome = true := by
        rcases (Bool.or_eq_true _ _).mp h with h1 | h1
        · exact absurd (of_decide_eq_true h1) hfd
        · exact h1
      cases hl : o.link with
      | some L => rfl
      | none => rw [hl] at hlink; simp at hlink

/-- If some output entry violates the sink-spec invariant and every
non-violating entry initializes successfully, the initialization loop
fails with (Error, EINVAL). -/
theorem pipelogInit_violates (us : Bool) :
    ∀ (l : List (Output × InitEnv)),
      (l.map (fun p => p.1)).any violatesSpec = true →
      (∀ p ∈ l, violatesSpec p.1 = false → (initEntry us p.1 p.2).isOk = true) →
      ∃ sts, pipelogInit us l = .error (.error, EINVAL, sts) := by
  intro l
  induction l with
  | nil =>
    intro hv _
    simp at hv
  | cons pe rest ih =>
    obtain ⟨o, en⟩ := pe
    intro hv hok
    by_cases hvo : violatesSpec o = true
    · refine ⟨[], ?_⟩
      simp only [pipelogInit, initEntry_violates us o en hvo]
    · have hvo' : violatesSpec o = false := by
        simpa using hvo
      have hok0 := hok (o, en) (by simp) hvo'
      cases hinit : initEntry us o en with
      | error x =>
        rw [hinit] at hok0
        simp [Except.isOk, Except.toBool] at hok0
      | ok st =>
        have hv' : (rest.map (fun p => p.1)).any violatesSpec = true := by
          simp only [List.map_cons, List.any_cons, hvo', Bool.false_or] at hv
          exact hv
        obtain ⟨sts, hrec⟩ := ih hv' (fun p hp hnv => hok p (by simp [hp]) hnv)
        refine ⟨st :: sts, ?_⟩
        simp only [pipelogInit, hinit, hrec]

/-- As long as some output entry violates the sink-spec invariant, the
initialization loop fails, whatever the other entries' syscalls do: once
the scan reaches the violating entry it rejects it, and any earlier
initialization failure only fails the loop sooner. -/
theorem pipelogInit_fails_on_violation (us : Bool) :
    ∀ (l : List (Output × InitEnv)),
      (l.map (fun p => p.1)).any violatesSpec = true →
      ∃ x, pipelogInit us l = .error x := by
  intro l
  induction l with
  | nil =>
    intro hv
    simp at hv
  | cons pe rest ih =>
    obtain ⟨o, en⟩ := pe
    intro hv
    by_cases hvo : violatesSpec o = true
    · refine ⟨(.error, EINVAL, []), ?_⟩
      simp only [pipelogInit, initEntry_violates us o en hvo]
    · have hvo' : violatesSpec o = false := by
        simpa using hvo
      have hv' : (rest.map (fun p => p.1)).any violatesSpec = true := by
        simp only [List.map_cons, List.any_cons, hvo', Bool.false_or] at hv
        exact hv
      cases hinit : initEntry us o en with
      | error x =>
        obtain ⟨s0, e0⟩ := x
        refine ⟨(s0, e0, []), ?_⟩
        simp only [pipelogInit, hinit]
      | ok st =>
        obtain ⟨⟨s0, e0, sts⟩, hrec⟩ := ih hv'
        refine ⟨(s0, e0, st :: sts), ?_⟩
        simp only [pipelogInit, hinit, hrec]

/-- C10 amended: if any output entry violates the sink-spec invariant,
`pipelog` terminates during initialization — unconditionally: nothing is
ever read from the input, no bytes are written to any sink, and an error
status and errno are reported; if additionally every entry that does not
itself violate the invariant initializes successfully, the result is
Error with errno EINVAL. -/
theorem invalid_output_rejected (fl : Flags) (us : Bool) (l : List (Output × InitEnv))
    (renvs : List IterEnv)
    (hv : (l.map (fun p => p.1)).any violatesSpec = true) :
    (pipelogRun fl us l renvs).traces = [] ∧
    readsOf (pipelogRun fl us l renvs).traces = [] ∧
    (∀ i, deliveredOf i (pipelogRun fl us l renvs).traces = []) ∧
    (pipelogRun fl us l renvs).statusR ≠ none ∧
    (pipelogRun fl us l renvs).errnoR ≠ none ∧
    ((∀ p ∈ l, violatesSpec p.1 = false → (initEntry us p.1 p.2).isOk = true) →
      (pipelogRun fl us l renvs).statusR = some .error ∧
      (pipelogRun fl us l renvs).errnoR = some EINVAL) := by
  obtain ⟨⟨s0, e0, sts0⟩, hinit⟩ := pipelogInit_fails_on_violation us l hv
  refine ⟨?_, ?_, ?_, ?_, ?_, ?_⟩
  · simp [pipelogRun, hinit]
  · simp [pipelogRun, hinit, readsOf]
  · intro i
    simp [pipelogRun, hinit, deliveredOf]
  · simp [pipelogRun, hinit]
  · simp [pipelogRun, hinit]
  · intro hok
    obtain ⟨sts, hinit2⟩ := pipelogInit_violates us l hv hok
    constructor <;> simp [pipelogRun, hinit2]

/-- C10 amended, witnessed: a single entry carrying a link without a
filename; the unconditional clause and, the entry list having no
non-violating entries, the Error/EINVAL clause. -/
theorem invalid_output_rejected_witness :
    (([(c10Bad, initOk5)].map (fun p => p.1)).any violatesSpec = true) ∧
    (pipelogRun flagsNone false [(c10Bad, initOk5)] []).traces = [] ∧
    (pipelogRun flagsNone false [(c10Bad, initOk5)] []).statusR ≠ none ∧
    (pipelogRun flagsNone false [(c10Bad, initOk5)] []).statusR = some .error ∧
    (pipelogRun flagsNone false [(c10Bad, initOk5)] []).errnoR = some EINVAL :=
  ⟨by decide,
   (invalid_output_rejected flagsNone false [(c10Bad, initOk5)] [] (by decide)).1,
   (invalid_output_rejected flagsNone false [(c10Bad, initOk5)] [] (by decide)).2.2.2.1,
   ((invalid_output_rejected flagsNone false [(c10Bad, initOk5)] [] (by decide)).2.2.2.2.2
     (by decide)).1,
   ((invalid_output_rejected flagsNone false [(c10Bad, initOk5)] [] (by decide)).2.2.2.2.2
     (by decide)).2⟩

/-- C10 counterexample: with a valid first entry whose `open` fails with
EINTR and a second, invalid entry (a link without filename), `pipelog`
returns Interrupted with errno EINTR — not Error with errno EINVAL as the
claim states for every configuration containing an invalid entry. -/
theorem invalid_output_counterexample :
    violatesSpec c10Bad = true ∧
    pipelogRun flagsNone false [(⟨some ("app.log"), none, -1⟩, initEintr), (c10Bad, initOk5)]
      [] = ⟨[], some .interrupted, some EINTR, [], []⟩ ∧
    some Status.interrupted ≠ some Status.error ∧
    some EINTR ≠ some EINVAL := by
  decide

end Pipelog
